import Mathlib

/-
Verification of the go-urlshortner URL redirection service.

The Go code is shallowly embedded: HTTP handlers become pure functions
from requests to responses, the Go map becomes a lookup function
String to Option String built by the same left-to-right overwriting
fold the source uses, and fallible constructors return Except.  The
external deserializers (yaml.Unmarshal, json.Unmarshal) and the file
system (ioutil.ReadFile) are not code of this repository; they are
taken as explicit function parameters, so every theorem quantifies
over their behaviour.
-/

namespace Urlshort

/-- An HTTP request, reduced to the parts the program can observe:
the URL path plus other fields (method, body) that show that the
dispatch logic consults the path only. -/
structure Request where
  path : String
  method : String
  body : String
deriving DecidableEq, Repr

/-- The observable response the program writes: either an HTTP
redirect carrying a status and a Location header, or plain content
with a status and a body. -/
inductive Response where
  | redirect (status : Nat) (location : String)
  | content (status : Nat) (body : String)
deriving DecidableEq, Repr

/-- A handler, as in net/http: it consumes a request and produces a
response (the ResponseWriter side effect is made into a return value). -/
abbrev Handler := Request → Response

/-- Embeds http.Redirect with http.StatusFound: status 302 and a
Location header equal to the destination. -/
def httpRedirect (destination : String) : Response :=
  Response.redirect 302 destination

/-- The pathURL record of handler.go: one (path, url) configuration pair. -/
structure pathURL where
  Path : String
  URL : String
deriving DecidableEq, Repr

/-- A redirect table: the Go map from path to destination URL,
embedded as a lookup function. -/
abbrev Table := String → Option String

/-- One step of Go map assignment, result[pU.Path] = pU.URL:
the new binding shadows any earlier one for the same key. -/
def insertRecord (result : Table) (pU : pathURL) : Table :=
  fun key => if key = pU.Path then some pU.URL else result key

/-- pathSliceToMapConversion from handler.go: iterates the records in
order and assigns result[pU.Path] = pU.URL into an initially empty map. -/
def pathSliceToMapConversion (pUrls : List pathURL) : Table :=
  pUrls.foldl insertRecord (fun _ => none)

/-- MapHandler from handler.go: on a request, look the URL path up in
the table; on a hit redirect with 302 Found to the destination and
return, otherwise invoke the fallback handler on the same request. -/
def MapHandler (pathsToUrls : Table) (fallbackHandler : Handler) : Handler :=
  fun r =>
    match pathsToUrls r.path with
    | some destination => httpRedirect destination
    | none => fallbackHandler r

/-- The behaviour of an external deserializer (yaml.Unmarshal or
json.Unmarshal targeting a slice of pathURL): byte content in, either
an error or an ordered record sequence out. -/
abbrev Unmarshal := String → Except String (List pathURL)

/-- The behaviour of the file system seen through ioutil.ReadFile:
a file name maps to either a read error or the full file content. -/
abbrev FileSystem := String → Except String String

/-- openFile from handler.go: read the full content of the named file,
propagating any read error. -/
def openFile (fs : FileSystem) (fileName : String) : Except String String :=
  match fs fileName with
  | Except.error err => Except.error err
  | Except.ok fileByte => Except.ok fileByte

/-- parseYAMLToPathURL from handler.go: unmarshal the bytes into a
record slice, propagating any parse error. -/
def parseYAMLToPathURL (yamlUnmarshal : Unmarshal) (data : String) :
    Except String (List pathURL) :=
  match yamlUnmarshal data with
  | Except.error err => Except.error err
  | Except.ok pathURLs => Except.ok pathURLs

/-- parseJSONToPathURL from handler.go: unmarshal the bytes into a
record slice, propagating any parse error. -/
def parseJSONToPathURL (jsonUnmarshal : Unmarshal) (data : String) :
    Except String (List pathURL) :=
  match jsonUnmarshal data with
  | Except.error err => Except.error err
  | Except.ok pathsToURLs => Except.ok pathsToURLs

/-- YAMLHandler from handler.go: parse the YAML bytes, convert the
record slice to a map, and wrap it in a MapHandler over the fallback;
a parse error is returned with no handler. -/
def YAMLHandler (yamlUnmarshal : Unmarshal) (yml : String)
    (fallbackHandler : Handler) : Except String Handler :=
  match parseYAMLToPathURL yamlUnmarshal yml with
  | Except.error err => Except.error err
  | Except.ok pathURLs =>
      Except.ok (MapHandler (pathSliceToMapConversion pathURLs) fallbackHandler)

/-- JSONFileHandler from handler.go: read the JSON file, parse its
content, convert to a map and wrap in a MapHandler; a read or parse
error is returned with no handler. -/
def JSONFileHandler (fs : FileSystem) (jsonUnmarshal : Unmarshal)
    (jsonFileName : String) (fallbackHandler : Handler) : Except String Handler :=
  match openFile fs jsonFileName with
  | Except.error err => Except.error err
  | Except.ok jsonData =>
      match parseJSONToPathURL jsonUnmarshal jsonData with
      | Except.error err => Except.error err
      | Except.ok pathURLs =>
          Except.ok (MapHandler (pathSliceToMapConversion pathURLs) fallbackHandler)

/-- YAMLFileHandler from handler.go: read the YAML file and delegate
to YAMLHandler; a read error is returned with no handler. -/
def YAMLFileHandler (fs : FileSystem) (yamlUnmarshal : Unmarshal)
    (yamlFileName : String) (fallbackHandler : Handler) : Except String Handler :=
  match openFile fs yamlFileName with
  | Except.error err => Except.error err
  | Except.ok yamlBytes => YAMLHandler yamlUnmarshal yamlBytes fallbackHandler

/-- hello from main.go: write the fixed greeting (fmt.Fprintln appends
a newline) with the implicit 200 status. -/
def hello (_ : Request) : Response :=
  Response.content 200 "Hello, world!\n"

/-- defaultMux from main.go: a ServeMux with hello registered at the
root subtree pattern, so every request reaching it gets the greeting. -/
def defaultMux : Handler :=
  fun r => hello r

/-- The in-memory pathsToUrls map literal of main.go. -/
def mainPathsToUrls : Table :=
  fun p =>
    if p = "/urlshort-godoc" then some "https://godoc.org/github.com/gophercises/urlshort"
    else if p = "/yaml-godoc" then some "https://godoc.org/gopkg.in/yaml.v2"
    else none

/-- The embedded YAML literal of main.go. -/
def embeddedYAML : String :=
  "\n- path: /urlshort\n  url: https://github.com/gophercises/urlshort\n- path: /urlshort-final\n  url: https://github.com/gophercises/urlshort/tree/solution\n"

/-- The handler-chain construction of main.go: default mux, in-memory
MapHandler over it, embedded-YAML handler over that, JSON-file handler
over that, YAML-file handler over that; the result installed as the
root handler is returned, and any constructor error aborts startup
(main panics). -/
def mainRootHandler (fs : FileSystem) (yamlUnmarshal jsonUnmarshal : Unmarshal)
    (jsonFileName yamlFileName : String) : Except String Handler :=
  let mux := defaultMux
  let mapHandler := MapHandler mainPathsToUrls mux
  match YAMLHandler yamlUnmarshal embeddedYAML mapHandler with
  | Except.error err => Except.error err
  | Except.ok yamlHandler =>
      match JSONFileHandler fs jsonUnmarshal jsonFileName yamlHandler with
      | Except.error err => Except.error err
      | Except.ok jsonFileHandler =>
          YAMLFileHandler fs yamlUnmarshal yamlFileName jsonFileHandler

/-
Helper lemmas, shared by several claim theorems.
-/

/-- Folding insertRecord over a record list looks up like a search of
the reversed list: the last record with the wanted path wins, and the
initial table answers when no record has the path. -/
lemma foldl_insertRecord_lookup (l : List pathURL) (m : Table) (p : String) :
    l.foldl insertRecord m p =
      ((l.reverse.find? fun pU => pU.Path == p).map pathURL.URL).or (m p) := by
  induction l generalizing m with
  | nil => simp
  | cons a t ih =>
      simp only [List.foldl_cons, ih, List.reverse_cons, List.find?_append]
      cases hf : t.reverse.find? (fun pU => pU.Path == p) with
      | some r => simp
      | none =>
          by_cases hpa : p = a.Path
          · simp [List.find?, insertRecord, hpa, Option.or]
          · have hb : (a.Path == p) = false := by
              simp [beq_eq_false_iff_ne]
              exact fun hc => hpa hc.symm
            simp [List.find?, insertRecord, hpa, hb, Option.or]

/-- The built table answers exactly as a search of the reversed record
list: the last occurrence of a path wins. -/
lemma pathSliceToMapConversion_eq_find (pUrls : List pathURL) (p : String) :
    pathSliceToMapConversion pUrls p =
      (pUrls.reverse.find? fun pU => pU.Path == p).map pathURL.URL := by
  have h := foldl_insertRecord_lookup pUrls (fun _ => none) p
  simpa [pathSliceToMapConversion] using h

/-- A table hit comes from some record of the list with that path. -/
lemma lookup_some_mem (l : List pathURL) (p u : String)
    (h : pathSliceToMapConversion l p = some u) :
    ∃ r ∈ l, r.Path = p ∧ r.URL = u := by
  rw [pathSliceToMapConversion_eq_find] at h
  cases hf : l.reverse.find? (fun pU => pU.Path == p) with
  | none => rw [hf] at h; simp at h
  | some r =>
      rw [hf] at h
      simp at h
      refine ⟨r, ?_, ?_, h⟩
      · exact List.mem_reverse.mp (List.mem_of_find?_eq_some hf)
      · have := List.find?_some hf
        exact beq_iff_eq.mp this

/-- In a list whose records have pairwise distinct paths, at most one
record carries a given path. -/
lemma pairwise_path_unique (l : List pathURL)
    (hnd : l.Pairwise fun a b => a.Path ≠ b.Path)
    (r s : pathURL) (hr : r ∈ l) (hs : s ∈ l) (hps : r.Path = s.Path) : r = s := by
  induction l with
  | nil => cases hr
  | cons a t ih =>
      rcases List.pairwise_cons.mp hnd with ⟨ha, ht⟩
      rcases List.mem_cons.mp hr with hra | hrt
      · rcases List.mem_cons.mp hs with hsa | hst
        · exact hra.trans hsa.symm
        · exact absurd (hra ▸ hps) (ha s hst)
      · rcases List.mem_cons.mp hs with hsa | hst
        · exact absurd (hsa ▸ hps).symm (ha r hrt)
        · exact ih ht hrt hst

/-- In a list whose records have pairwise distinct paths, a record of
the list determines the table entry at its path. -/
lemma lookup_of_mem (l : List pathURL)
    (hnd : l.Pairwise fun a b => a.Path ≠ b.Path)
    (r : pathURL) (hr : r ∈ l) :
    pathSliceToMapConversion l r.Path = some r.URL := by
  rw [pathSliceToMapConversion_eq_find]
  have hex : ∃ x ∈ l.reverse, (x.Path == r.Path) = true :=
    ⟨r, List.mem_reverse.mpr hr, beq_iff_eq.mpr rfl⟩
  have hsome := List.find?_isSome.mpr hex
  cases hf : l.reverse.find? (fun pU => pU.Path == r.Path) with
  | none => rw [hf] at hsome; simp at hsome
  | some s =>
      have hsl : s ∈ l := List.mem_reverse.mp (List.mem_of_find?_eq_some hf)
      have hps : s.Path = r.Path := by
        have := List.find?_some hf
        exact beq_iff_eq.mp this
      have : s = r := pairwise_path_unique l hnd s r hsl hr hps
      simp [this]

/-- The handler chain built by main, once every read and parse has
succeeded: each constructor wraps a MapHandler over the previous one,
YAML file outermost, then JSON file, then embedded YAML, then the
in-memory map, then the default mux. -/
lemma mainRootHandler_ok (fs : FileSystem)
    (yamlUnmarshal jsonUnmarshal : Unmarshal)
    (jsonFileName yamlFileName jsonData yamlData : String)
    (embeddedRecords jsonRecords yamlRecords : List pathURL)
    (hEmb : yamlUnmarshal embeddedYAML = Except.ok embeddedRecords)
    (hjRead : fs jsonFileName = Except.ok jsonData)
    (hjParse : jsonUnmarshal jsonData = Except.ok jsonRecords)
    (hyRead : fs yamlFileName = Except.ok yamlData)
    (hyParse : yamlUnmarshal yamlData = Except.ok yamlRecords) :
    mainRootHandler fs yamlUnmarshal jsonUnmarshal jsonFileName yamlFileName =
      Except.ok
        (MapHandler (pathSliceToMapConversion yamlRecords)
          (MapHandler (pathSliceToMapConversion jsonRecords)
            (MapHandler (pathSliceToMapConversion embeddedRecords)
              (MapHandler mainPathsToUrls defaultMux)))) := by
  simp [mainRootHandler, YAMLHandler, JSONFileHandler, YAMLFileHandler, openFile,
    parseYAMLToPathURL, parseJSONToPathURL, hEmb, hjRead, hjParse, hyRead, hyParse]

/-
Claim theorems.
-/

/-- C1: for every redirect table and every request whose URL path is a
key of the table, the handler built by MapHandler answers 302 Found
with a Location equal to the mapped URL, whatever the fallback handler
is (so the fallback is never consulted on such a request). -/
theorem mapHandler_hit_redirects (table : Table) (r : Request) (dest : String)
    (h : table r.path = some dest) :
    ∀ fallbackHandler : Handler,
      MapHandler table fallbackHandler r = Response.redirect 302 dest := by
  intro fb
  simp [MapHandler, httpRedirect, h]

theorem mapHandler_hit_redirects_witness :
    MapHandler (fun p => if p = "/x" then some "https://a.example" else none)
      (fun _ => Response.content 200 "fallback body")
      { path := "/x", method := "GET", body := "" } =
    Response.redirect 302 "https://a.example" :=
  mapHandler_hit_redirects
    (fun p => if p = "/x" then some "https://a.example" else none)
    { path := "/x", method := "GET", body := "" }
    "https://a.example" (by decide)
    (fun _ => Response.content 200 "fallback body")

/-- C3: the table builder maps every path to the URL of its last
occurrence in the record sequence (lookup equals a search of the
reversed sequence), and on the concrete input [(/x, A), (/x, B)] the
path /x is mapped to B. -/
theorem pathSliceToMapConversion_last_write_wins :
    (∀ (pUrls : List pathURL) (p : String),
        pathSliceToMapConversion pUrls p =
          (pUrls.reverse.find? fun pU => pU.Path == p).map pathURL.URL) ∧
    pathSliceToMapConversion
        [{ Path := "/x", URL := "A" }, { Path := "/x", URL := "B" }] "/x" = some "B" := by
  constructor
  · exact pathSliceToMapConversion_eq_find
  · decide

/-- C7: fallback delegation is transitive: with H1 built from table t1
over the default D, and H2 built from table t2 over H1, a request
whose path is in t1 but not in t2 gets from H2 exactly the 302
redirect to the URL t1 maps it to, the same response H1 alone gives. -/
theorem mapHandler_fallback_transitive (t1 t2 : Table) (D : Handler)
    (r : Request) (u : String)
    (h2 : t2 r.path = none) (h1 : t1 r.path = some u) :
    MapHandler t2 (MapHandler t1 D) r = Response.redirect 302 u ∧
    MapHandler t2 (MapHandler t1 D) r = MapHandler t1 D r := by
  constructor <;> simp [MapHandler, httpRedirect, h1, h2]

theorem mapHandler_fallback_transitive_witness :
    MapHandler (fun _ => none)
        (MapHandler (fun p => if p = "/a" then some "https://inner.example" else none)
          (fun _ => Response.content 200 "default"))
        { path := "/a", method := "GET", body := "" } =
      Response.redirect 302 "https://inner.example" ∧
    MapHandler (fun _ => none)
        (MapHandler (fun p => if p = "/a" then some "https://inner.example" else none)
          (fun _ => Response.content 200 "default"))
        { path := "/a", method := "GET", body := "" } =
      MapHandler (fun p => if p = "/a" then some "https://inner.example" else none)
        (fun _ => Response.content 200 "default")
        { path := "/a", method := "GET", body := "" } :=
  mapHandler_fallback_transitive
    (fun p => if p = "/a" then some "https://inner.example" else none)
    (fun _ => none)
    (fun _ => Response.content 200 "default")
    { path := "/a", method := "GET", body := "" }
    "https://inner.example" (by decide) (by decide)

/-- C8: for record sequences with pairwise distinct paths, the built
table is invariant under any permutation of the sequence. -/
theorem pathSliceToMapConversion_perm_invariant (l1 l2 : List pathURL)
    (hnd : l1.Pairwise fun a b => a.Path ≠ b.Path)
    (hperm : l1.Perm l2) :
    pathSliceToMapConversion l1 = pathSliceToMapConversion l2 := by
  have hnd2 : l2.Pairwise (fun a b => a.Path ≠ b.Path) :=
    (hperm.pairwise_iff fun hab => Ne.symm hab).mp hnd
  funext p
  cases hc : pathSliceToMapConversion l1 p with
  | some u =>
      rcases lookup_some_mem l1 p u hc with ⟨r, hrl, hrp, hru⟩
      have hr2 : r ∈ l2 := hperm.mem_iff.mp hrl
      rw [← hrp, lookup_of_mem l2 hnd2 r hr2, hru]
  | none =>
      cases hc2 : pathSliceToMapConversion l2 p with
      | none => rfl
      | some u =>
          rcases lookup_some_mem l2 p u hc2 with ⟨r, hrl, hrp, _⟩
          have hr1 : r ∈ l1 := hperm.mem_iff.mpr hrl
          have := lookup_of_mem l1 hnd r hr1
          rw [hrp] at this
          rw [this] at hc
          cases hc

theorem pathSliceToMapConversion_perm_invariant_witness :
    pathSliceToMapConversion
        [{ Path := "/a", URL := "https://one.example" },
         { Path := "/b", URL := "https://two.example" }] =
      pathSliceToMapConversion
        [{ Path := "/b", URL := "https://two.example" },
         { Path := "/a", URL := "https://one.example" }] :=
  pathSliceToMapConversion_perm_invariant
    [{ Path := "/a", URL := "https://one.example" },
     { Path := "/b", URL := "https://two.example" }]
    [{ Path := "/b", URL := "https://two.example" },
     { Path := "/a", URL := "https://one.example" }]
    (by decide) (by decide)

/-- C10: the handler built by MapHandler is deterministic in the URL
path: two requests with the same path either both get the same 302
redirect (when the table has the path) or are both delegated to the
fallback; no other request field influences the dispatch. -/
theorem mapHandler_deterministic (t : Table) (fb : Handler) (r1 r2 : Request)
    (h : r1.path = r2.path) :
    (∃ dest, t r1.path = some dest ∧
        MapHandler t fb r1 = Response.redirect 302 dest ∧
        MapHandler t fb r2 = Response.redirect 302 dest) ∨
    (t r1.path = none ∧
        MapHandler t fb r1 = fb r1 ∧ MapHandler t fb r2 = fb r2) := by
  cases hc : t r1.path with
  | some dest =>
      refine Or.inl ⟨dest, rfl, ?_, ?_⟩ <;>
        simp [MapHandler, httpRedirect, ← h, hc]
  | none =>
      refine Or.inr ⟨rfl, ?_, ?_⟩ <;>
        simp [MapHandler, ← h, hc]

theorem mapHandler_deterministic_witness :
    (∃ dest,
        (fun p => if p = "/x" then some "https://a.example" else none)
            (Request.path { path := "/x", method := "GET", body := "" }) = some dest ∧
        MapHandler (fun p => if p = "/x" then some "https://a.example" else none)
            (fun _ => Response.content 200 "fb")
            { path := "/x", method := "GET", body := "" } =
          Response.redirect 302 dest ∧
        MapHandler (fun p => if p = "/x" then some "https://a.example" else none)
            (fun _ => Response.content 200 "fb")
            { path := "/x", method := "POST", body := "payload" } =
          Response.redirect 302 dest) ∨
    ((fun p => if p = "/x" then some "https://a.example" else none)
          (Request.path { path := "/x", method := "GET", body := "" }) = none ∧
        MapHandler (fun p => if p = "/x" then some "https://a.example" else none)
            (fun _ => Response.content 200 "fb")
            { path := "/x", method := "GET", body := "" } =
          (fun _ : Request => Response.content 200 "fb")
            { path := "/x", method := "GET", body := "" } ∧
        MapHandler (fun p => if p = "/x" then some "https://a.example" else none)
            (fun _ => Response.content 200 "fb")
            { path := "/x", method := "POST", body := "payload" } =
          (fun _ : Request => Response.content 200 "fb")
            { path := "/x", method := "POST", body := "payload" }) :=
  mapHandler_deterministic
    (fun p => if p = "/x" then some "https://a.example" else none)
    (fun _ => Response.content 200 "fb")
    { path := "/x", method := "GET", body := "" }
    { path := "/x", method := "POST", body := "payload" }
    rfl

/-- C2: when every read and parse of startup succeeds, a request whose
path is absent from the YAML-file, JSON-file, embedded-YAML and
in-memory tables falls through the whole chain to the default mux,
which answers 200 with the fixed greeting, whatever the method or body
of the request. -/
theorem mainRootHandler_miss_hits_default (fs : FileSystem)
    (yamlUnmarshal jsonUnmarshal : Unmarshal)
    (jsonFileName yamlFileName jsonData yamlData : String)
    (embeddedRecords jsonRecords yamlRecords : List pathURL)
    (r : Request)
    (hEmb : yamlUnmarshal embeddedYAML = Except.ok embeddedRecords)
    (hjRead : fs jsonFileName = Except.ok jsonData)
    (hjParse : jsonUnmarshal jsonData = Except.ok jsonRecords)
    (hyRead : fs yamlFileName = Except.ok yamlData)
    (hyParse : yamlUnmarshal yamlData = Except.ok yamlRecords)
    (hm1 : pathSliceToMapConversion yamlRecords r.path = none)
    (hm2 : pathSliceToMapConversion jsonRecords r.path = none)
    (hm3 : pathSliceToMapConversion embeddedRecords r.path = none)
    (hm4 : mainPathsToUrls r.path = none) :
    ∃ rootHandler,
      mainRootHandler fs yamlUnmarshal jsonUnmarshal jsonFileName yamlFileName =
        Except.ok rootHandler ∧
      rootHandler r = Response.content 200 "Hello, world!\n" := by
  refine ⟨_, mainRootHandler_ok fs yamlUnmarshal jsonUnmarshal jsonFileName yamlFileName
      jsonData yamlData embeddedRecords jsonRecords yamlRecords
      hEmb hjRead hjParse hyRead hyParse, ?_⟩
  simp [MapHandler, defaultMux, hello, hm1, hm2, hm3, hm4]

theorem mainRootHandler_miss_hits_default_witness :
    ∃ rootHandler,
      mainRootHandler (fun _ => Except.ok "") (fun _ => Except.ok [])
          (fun _ => Except.ok []) "paths.json" "paths.yaml" =
        Except.ok rootHandler ∧
      rootHandler { path := "/nonexistent", method := "GET", body := "" } =
        Response.content 200 "Hello, world!\n" :=
  mainRootHandler_miss_hits_default (fun _ => Except.ok "") (fun _ => Except.ok [])
    (fun _ => Except.ok []) "paths.json" "paths.yaml" "" "" [] [] []
    { path := "/nonexistent", method := "GET", body := "" }
    rfl rfl rfl rfl rfl rfl rfl rfl (by decide)

/-- C4: the YAML handler constructor returns the parse error alone
when unmarshalling fails, and in general returns either an error or
the fully built MapHandler over the parsed records, never both. -/
theorem yamlHandler_error_xor_handler (yamlUnmarshal : Unmarshal)
    (yml : String) (fb : Handler) :
    (∀ e, yamlUnmarshal yml = Except.error e →
        YAMLHandler yamlUnmarshal yml fb = Except.error e) ∧
    ((∃ e, YAMLHandler yamlUnmarshal yml fb = Except.error e) ∨
     (∃ pathURLs, yamlUnmarshal yml = Except.ok pathURLs ∧
        YAMLHandler yamlUnmarshal yml fb =
          Except.ok (MapHandler (pathSliceToMapConversion pathURLs) fb))) ∧
    ¬ ((∃ e, YAMLHandler yamlUnmarshal yml fb = Except.error e) ∧
       (∃ hd, YAMLHandler yamlUnmarshal yml fb = Except.ok hd)) := by
  refine ⟨?_, ?_, ?_⟩
  · intro e he
    simp [YAMLHandler, parseYAMLToPathURL, he]
  · cases hu : yamlUnmarshal yml with
    | error e =>
        exact Or.inl ⟨e, by simp [YAMLHandler, parseYAMLToPathURL, hu]⟩
    | ok ps =>
        exact Or.inr ⟨ps, rfl, by simp [YAMLHandler, parseYAMLToPathURL, hu]⟩
  · rintro ⟨⟨e, he⟩, ⟨hd, hh⟩⟩
    rw [he] at hh
    exact Except.noConfusion hh

theorem yamlHandler_error_xor_handler_witness :
    YAMLHandler
        (fun s => if s = ":\n  - bad" then Except.error "yaml: did not find expected key"
                  else Except.ok [])
        ":\n  - bad" (fun _ => Response.content 200 "default") =
      Except.error "yaml: did not find expected key" :=
  (yamlHandler_error_xor_handler
      (fun s => if s = ":\n  - bad" then Except.error "yaml: did not find expected key"
                else Except.ok [])
      ":\n  - bad" (fun _ => Response.content 200 "default")).1
    "yaml: did not find expected key" (by simp)

/-- C5: when reading the named file fails, JSONFileHandler and
YAMLFileHandler return that read error with no handler, and the result
does not depend on the unmarshal function, so no parse is attempted. -/
theorem fileHandlers_read_error_first (fs : FileSystem)
    (jsonUnmarshal yamlUnmarshal : Unmarshal)
    (fileName : String) (fb : Handler) (e : String)
    (h : fs fileName = Except.error e) :
    JSONFileHandler fs jsonUnmarshal fileName fb = Except.error e ∧
    YAMLFileHandler fs yamlUnmarshal fileName fb = Except.error e ∧
    (∀ otherUnmarshal : Unmarshal,
        JSONFileHandler fs otherUnmarshal fileName fb =
          JSONFileHandler fs jsonUnmarshal fileName fb ∧
        YAMLFileHandler fs otherUnmarshal fileName fb =
          YAMLFileHandler fs yamlUnmarshal fileName fb) := by
  refine ⟨?_, ?_, fun otherUnmarshal => ⟨?_, ?_⟩⟩ <;>
    simp [JSONFileHandler, YAMLFileHandler, openFile, h]

theorem fileHandlers_read_error_first_witness :
    JSONFileHandler (fun _ => Except.error "open paths.json: no such file or directory")
        (fun _ => Except.ok []) "paths.json" (fun _ => Response.content 200 "d") =
      Except.error "open paths.json: no such file or directory" ∧
    YAMLFileHandler (fun _ => Except.error "open paths.json: no such file or directory")
        (fun _ => Except.ok []) "paths.json" (fun _ => Response.content 200 "d") =
      Except.error "open paths.json: no such file or directory" ∧
    (∀ otherUnmarshal : Unmarshal,
        JSONFileHandler (fun _ => Except.error "open paths.json: no such file or directory")
            otherUnmarshal "paths.json" (fun _ => Response.content 200 "d") =
          JSONFileHandler (fun _ => Except.error "open paths.json: no such file or directory")
            (fun _ => Except.ok []) "paths.json" (fun _ => Response.content 200 "d") ∧
        YAMLFileHandler (fun _ => Except.error "open paths.json: no such file or directory")
            otherUnmarshal "paths.json" (fun _ => Response.content 200 "d") =
          YAMLFileHandler (fun _ => Except.error "open paths.json: no such file or directory")
            (fun _ => Except.ok []) "paths.json" (fun _ => Response.content 200 "d")) :=
  fileHandlers_read_error_first
    (fun _ => Except.error "open paths.json: no such file or directory")
    (fun _ => Except.ok []) (fun _ => Except.ok []) "paths.json"
    (fun _ => Response.content 200 "d")
    "open paths.json: no such file or directory" rfl

/-- C6: when every read and parse of startup succeeds, the root
handler main installs is the YAML-file MapHandler wrapping the
JSON-file MapHandler wrapping the embedded-YAML MapHandler wrapping
the in-memory MapHandler wrapping the default mux, so requests are
matched against the tables in exactly that outermost-to-innermost
order. -/
theorem mainRootHandler_chain_order (fs : FileSystem)
    (yamlUnmarshal jsonUnmarshal : Unmarshal)
    (jsonFileName yamlFileName jsonData yamlData : String)
    (embeddedRecords jsonRecords yamlRecords : List pathURL)
    (hEmb : yamlUnmarshal embeddedYAML = Except.ok embeddedRecords)
    (hjRead : fs jsonFileName = Except.ok jsonData)
    (hjParse : jsonUnmarshal jsonData = Except.ok jsonRecords)
    (hyRead : fs yamlFileName = Except.ok yamlData)
    (hyParse : yamlUnmarshal yamlData = Except.ok yamlRecords) :
    mainRootHandler fs yamlUnmarshal jsonUnmarshal jsonFileName yamlFileName =
      Except.ok
        (MapHandler (pathSliceToMapConversion yamlRecords)
          (MapHandler (pathSliceToMapConversion jsonRecords)
            (MapHandler (pathSliceToMapConversion embeddedRecords)
              (MapHandler mainPathsToUrls defaultMux)))) :=
  mainRootHandler_ok fs yamlUnmarshal jsonUnmarshal jsonFileName yamlFileName
    jsonData yamlData embeddedRecords jsonRecords yamlRecords
    hEmb hjRead hjParse hyRead hyParse

theorem mainRootHandler_chain_order_witness :
    mainRootHandler (fun _ => Except.ok "") (fun _ => Except.ok [])
        (fun _ => Except.ok []) "paths.json" "paths.yaml" =
      Except.ok
        (MapHandler (pathSliceToMapConversion [])
          (MapHandler (pathSliceToMapConversion [])
            (MapHandler (pathSliceToMapConversion [])
              (MapHandler mainPathsToUrls defaultMux)))) :=
  mainRootHandler_chain_order (fun _ => Except.ok "") (fun _ => Except.ok [])
    (fun _ => Except.ok []) "paths.json" "paths.yaml" "" "" [] [] []
    rfl rfl rfl rfl rfl

/-- C9: the JSON path refines the YAML path: when the JSON file read
and parse and the YAML parse yield the same record sequence,
JSONFileHandler and YAMLHandler over the same fallback return handlers
with identical responses on every request. -/
theorem jsonFileHandler_yamlHandler_equiv (fs : FileSystem)
    (jsonUnmarshal yamlUnmarshal : Unmarshal)
    (jsonFileName jsonData yml : String) (fb : Handler)
    (records : List pathURL)
    (hread : fs jsonFileName = Except.ok jsonData)
    (hj : jsonUnmarshal jsonData = Except.ok records)
    (hy : yamlUnmarshal yml = Except.ok records) :
    ∃ h1 h2,
      JSONFileHandler fs jsonUnmarshal jsonFileName fb = Except.ok h1 ∧
      YAMLHandler yamlUnmarshal yml fb = Except.ok h2 ∧
      ∀ r : Request, h1 r = h2 r := by
  refine ⟨MapHandler (pathSliceToMapConversion records) fb,
          MapHandler (pathSliceToMapConversion records) fb, ?_, ?_, fun _ => rfl⟩
  · simp [JSONFileHandler, openFile, parseJSONToPathURL, hread, hj]
  · simp [YAMLHandler, parseYAMLToPathURL, hy]

theorem jsonFileHandler_yamlHandler_equiv_witness :
    ∃ h1 h2,
      JSONFileHandler (fun _ => Except.ok "[\x7b\"path\":\"/a\",\"url\":\"https://a.example\"\x7d]")
          (fun _ => Except.ok [{ Path := "/a", URL := "https://a.example" }])
          "paths.json" (fun _ => Response.content 200 "d") = Except.ok h1 ∧
      YAMLHandler (fun _ => Except.ok [{ Path := "/a", URL := "https://a.example" }])
          "- path: /a\n  url: https://a.example\n"
          (fun _ => Response.content 200 "d") = Except.ok h2 ∧
      ∀ r : Request, h1 r = h2 r :=
  jsonFileHandler_yamlHandler_equiv
    (fun _ => Except.ok "[\x7b\"path\":\"/a\",\"url\":\"https://a.example\"\x7d]")
    (fun _ => Except.ok [{ Path := "/a", URL := "https://a.example" }])
    (fun _ => Except.ok [{ Path := "/a", URL := "https://a.example" }])
    "paths.json" "[\x7b\"path\":\"/a\",\"url\":\"https://a.example\"\x7d]"
    "- path: /a\n  url: https://a.example\n"
    (fun _ => Response.content 200 "d")
    [{ Path := "/a", URL := "https://a.example" }]
    rfl rfl rfl

end Urlshort
